import Mathlib

/-!
A shallow embedding of the in-toto metadata container (`model.go`) and the
string-set utilities (`util.go`), with proofs of specification-level
properties of `Load`, `Sign`, `VerifySignature` and the set algebra.

File input/output, raw JSON text parsing, the canonical JSON encoder
(`encodeCanonical`) and the cryptographic backends live outside the two
embedded source files; they are modelled abstractly: decoding operates on an
already parsed JSON tree, and the canonicalizer and the signature backend
are explicit function arguments.
-/

namespace InToto

/-! ## util.go: Set -/

/-- Go: `type Set map[string]struct{}`.  A set value is modelled as the list
of keys of the map; `Add` inserts a key only when it is absent, so lists
built through the API carry no duplicates.  Go map iteration order is
unspecified; the key list fixes one order, on which no membership result
depends. -/
def Set : Type := List String

/-- Go: `func (s Set) Has(elem string) bool` — membership test
(`_, ok := s[elem]`). -/
def Set.Has (s : Set) (elem : String) : Bool :=
  List.contains s elem

/-- Go: `func (s Set) Add(elem string)` — `s[elem] = struct{}{}`: the key is
inserted if absent, a no-op otherwise. -/
def Set.Add (s : Set) (elem : String) : Set :=
  if List.contains s elem then s else List.append s [elem]

/-- Go: `func (s Set) Remove(elem string)` — `delete(s, elem)`. -/
def Set.Remove (s : Set) (elem : String) : Set :=
  List.filter (fun e => !(e == elem)) s

/-- Go: `func NewSet(elems ...string) Set` — make an empty set and `Add`
each passed element. -/
def NewSet (elems : List String) : Set :=
  List.foldl (fun s elem => Set.Add s elem) ([] : List String) elems

/-- Go: `func (s Set) Intersection(s2 Set) Set` — start from `NewSet()`,
iterate over `s`, skip elements with `s2.Has(elem) == false`, `Add` the
rest to the result. -/
def Set.Intersection (s s2 : Set) : Set :=
  List.foldl
    (fun res elem => if Set.Has s2 elem = false then res else Set.Add res elem)
    (NewSet []) s

/-- Go: `func (s Set) Difference(s2 Set) Set` — start from `NewSet()`,
iterate over `s`, skip elements with `s2.Has(elem)`, `Add` the rest. -/
def Set.Difference (s s2 : Set) : Set :=
  List.foldl
    (fun res elem => if Set.Has s2 elem then res else Set.Add res elem)
    (NewSet []) s

/-! ## path/filepath.Match (Go standard library)

`Set.Filter` delegates matching to Go's `path/filepath.Match`, which is not
part of this repository; the next definitions model its documented
semantics. -/

/-- Modelled from the spec: one (possibly `\`-escaped) character of a `[...]`
character class of the external shell-glob matcher `path/filepath.Match`
(`Set.Filter`'s matcher, not part of this repository); a leading `-` or `]`
and a trailing `\` are malformed. -/
def filepath.getEsc : List Char → Except Unit (Char × List Char)
  | [] => Except.error ()
  | c :: rest =>
    if c = '-' || c = ']' then Except.error ()
    else if c = '\\' then
      match rest with
      | [] => Except.error ()
      | d :: rest2 => Except.ok (d, rest2)
    else Except.ok (c, rest)

/-- Modelled from the spec: the `[...]`-class loop of the external shell-glob
matcher `path/filepath.Match` (not part of this repository): ranges `lo-hi`
(or single characters) are read until the closing `]`, which must not come
first; the Bool accumulates whether the probed character fell in any range.
The fuel bounds the number of ranges (each step consumes at least one
pattern character), so with fuel `p.length` the fuel-0 branch is reached
only with an empty pattern, where the unfueled loop would also report a
malformed pattern. -/
def filepath.matchRanges : Nat → List Char → Char → Bool → Nat → Except Unit (Bool × List Char)
  | 0, _, _, _, _ => Except.error ()
  | f + 1, p, r, matched, nrange =>
    match p, nrange with
    | ']' :: rest, _ + 1 => Except.ok (matched, rest)
    | _, _ =>
      match filepath.getEsc p with
      | Except.error e => Except.error e
      | Except.ok (lo, p1) =>
        match p1 with
        | '-' :: p2 =>
          match filepath.getEsc p2 with
          | Except.error e => Except.error e
          | Except.ok (hi, p3) =>
            filepath.matchRanges f p3 r (matched || (decide (lo ≤ r) && decide (r ≤ hi))) (nrange + 1)
        | _ =>
          filepath.matchRanges f p1 r (matched || (decide (lo ≤ r) && decide (r ≤ lo))) (nrange + 1)

/-- Modelled from the spec: the external shell-glob matcher
`path/filepath.Match(pattern, name)` used by `Set.Filter` (not part of this
repository).  The pattern must match all of `name`; `*` matches any sequence
of non-separator characters, `?` one non-separator character, `[...]` a
character class, `\` escapes the next character; `/` is the path separator;
a malformed pattern reports `ErrBadPattern`, modelled as `Except.error ()`.
The structural fuel bounds the recursion depth; `filepath.Match` passes more
fuel than the depth (every recursive call consumes at least one pattern or
name character), so the fuel-0 branch is unreachable from it. -/
def filepath.matchFuel : Nat → List Char → List Char → Except Unit Bool
  | 0, _, _ => Except.error ()
  | f + 1, p, n =>
    match p, n with
    | [], rest => Except.ok rest.isEmpty
    | '*' :: p2, nn =>
      match filepath.matchFuel f p2 nn with
      | Except.ok true => Except.ok true
      | Except.error e => Except.error e
      | Except.ok false =>
        match nn with
        | [] => Except.ok false
        | c :: n2 =>
          if c = '/' then Except.ok false else filepath.matchFuel f ('*' :: p2) n2
    | '?' :: _, [] => Except.ok false
    | '?' :: p2, c :: n2 =>
      if c = '/' then Except.ok false else filepath.matchFuel f p2 n2
    | '[' :: _, [] => Except.ok false
    | '[' :: p2, r :: n2 =>
      match (match p2 with | '^' :: rest => (true, rest) | _ => (false, p2)) with
      | (negated, pc) =>
        match filepath.matchRanges pc.length pc r false 0 with
        | Except.error e => Except.error e
        | Except.ok (matched, p3) =>
          if matched = negated then Except.ok false else filepath.matchFuel f p3 n2
    | c :: p2, d :: n2 =>
      if c = d then filepath.matchFuel f p2 n2 else Except.ok false
    | _ :: _, [] => Except.ok false

/-- Modelled from the spec: `path/filepath.Match` (not part of this
repository); the fuel `pattern.length + name.length + 1` strictly exceeds
the recursion depth of `matchFuel`. -/
def filepath.Match (pattern name : String) : Except Unit Bool :=
  filepath.matchFuel (pattern.length + name.length + 1) pattern.toList name.toList

/-- Go: `func (s Set) Filter(pattern string) Set` — keep the elements that
`filepath.Match` the pattern; a match error (malformed pattern) prints a
warning and counts as a non-match. -/
def Set.Filter (s : Set) (pattern : String) : Set :=
  List.foldl
    (fun res elem =>
      match filepath.Match pattern elem with
      | Except.error _ => res
      | Except.ok false => res
      | Except.ok true => Set.Add res elem)
    (NewSet []) s

/-- Go: `func (s Set) Slice() []string` — the elements in unspecified
order; the model exposes its key list. -/
def Set.Slice (s : Set) : List String :=
  s

/-- Go: `func subsetCheck(subset []string, superset []string) bool` — the
labelled double loop: for each element of `subset`, scan `superset` for an
equal string; return false as soon as one scan fails, true otherwise. -/
def subsetCheck (subset superset : List String) : Bool :=
  match subset with
  | [] => true
  | sub :: rest =>
    if List.any superset (fun sup => sub == sup) then subsetCheck rest superset
    else false

/-! ## A heap of Set values

Go's `Set` is a map reference: `Intersection`, `Difference` and `Filter`
receive references to their operands and could in principle mutate them.
To state frame properties, the same loops are re-expressed over an explicit
heap of `Set` values addressed by `Nat` references; every read and write of
a Go map variable becomes an explicit `read`/`write` of its reference. -/

structure Store where
  sets : List Set

/-- Dereference a Set reference (out-of-range reads default to the empty
set; the theorems only use valid references). -/
def Store.read (σ : Store) (r : Nat) : Set :=
  List.getD σ.sets r []

/-- Overwrite the Set value behind a reference. -/
def Store.write (σ : Store) (r : Nat) (v : Set) : Store :=
  ⟨List.set σ.sets r v⟩

/-- Go: `res := NewSet()` — allocate a fresh empty Set and return its
(fresh) reference. -/
def Store.allocNew (σ : Store) : Store × Nat :=
  (⟨σ.sets ++ [NewSet []]⟩, σ.sets.length)

/-- Go: `res.Add(elem)` on a Set reference. -/
def Store.addAt (σ : Store) (r : Nat) (elem : String) : Store :=
  Store.write σ r (Set.Add (Store.read σ r) elem)

/-- `Set.Intersection` over the heap: allocate `res := NewSet()`, iterate
over the receiver's elements, test membership in `s2` through its
reference, and `Add` kept elements to `res`.  The loop body writes only
through `res`. -/
def Store.Intersection (σ : Store) (r1 r2 : Nat) : Store × Nat :=
  match Store.allocNew σ with
  | (σ1, res) =>
    (List.foldl
      (fun σc elem =>
        if Set.Has (Store.read σc r2) elem = false then σc else Store.addAt σc res elem)
      σ1 (Store.read σ r1), res)

/-- `Set.Difference` over the heap; see `Store.Intersection`. -/
def Store.Difference (σ : Store) (r1 r2 : Nat) : Store × Nat :=
  match Store.allocNew σ with
  | (σ1, res) =>
    (List.foldl
      (fun σc elem =>
        if Set.Has (Store.read σc r2) elem then σc else Store.addAt σc res elem)
      σ1 (Store.read σ r1), res)

/-- `Set.Filter` over the heap; see `Store.Intersection`. -/
def Store.Filter (σ : Store) (r1 : Nat) (pattern : String) : Store × Nat :=
  match Store.allocNew σ with
  | (σ1, res) =>
    (List.foldl
      (fun σc elem =>
        match filepath.Match pattern elem with
        | Except.error _ => σc
        | Except.ok false => σc
        | Except.ok true => Store.addAt σc res elem)
      σ1 (Store.read σ r1), res)

/-! ## model.go: data model -/

/-- Go: `type KeyVal struct { Private, Public string }`. -/
structure KeyVal where
  Private : String
  Public : String
deriving DecidableEq

/-- Go: `type Key struct { KeyId, KeyIdHashAlgorithms, KeyType, KeyVal,
Scheme }`. -/
structure Key where
  KeyId : String
  KeyIdHashAlgorithms : List String
  KeyType : String
  KeyVal : KeyVal
  Scheme : String
deriving DecidableEq

/-- Go: `type Signature struct { KeyId, Sig string }`. -/
structure Signature where
  KeyId : String
  Sig : String
deriving DecidableEq

/-- A parsed JSON document, the input of `Metablock.Load` (the Go code reads
bytes from a file and parses them with `encoding/json`; the file system and
the raw text parser are outside the embedded sources, so `Load` is modelled
on the parsed tree).  `num` carries integral JSON numbers only — no claim
involves fractional numbers.  Go decodes JSON objects into maps where a
duplicated key keeps its last value; objects are association lists here and
every lookup takes the last binding (`lookupGo`). -/
inductive Json where
  | null
  | bool (b : Bool)
  | num (n : Int)
  | str (s : String)
  | arr (elems : List Json)
  | obj (fields : List (String × Json))

/-- Go field `Type string` with tag `_type` (`Type` is not a valid Lean
field name, hence `Type_`).  Go: `type Link struct { ... }`; the
`map[string]interface{}` fields hold arbitrary decoded JSON values,
modelled as the JSON objects themselves (a `nil` and an empty map are both
`[]`). -/
structure Link where
  Type_ : String
  Name : String
  Materials : List (String × Json)
  Products : List (String × Json)
  ByProducts : List (String × Json)
  Command : List String
  Environment : List (String × Json)

/-- Go: `type SupplyChainItem struct { Name, ExpectedMaterials,
ExpectedProducts }`. -/
structure SupplyChainItem where
  Name : String
  ExpectedMaterials : List (List String)
  ExpectedProducts : List (List String)

/-- Go: `type Inspection struct { Type, Run; SupplyChainItem }` (the
embedded struct becomes the `Item` field; its JSON fields stay promoted to
the top level during decoding). -/
structure Inspection where
  Type_ : String
  Run : List String
  Item : SupplyChainItem

/-- Go: `type Step struct { Type, PubKeys, ExpectedCommand, Threshold;
SupplyChainItem }`. -/
structure Step where
  Type_ : String
  PubKeys : List String
  ExpectedCommand : List String
  Threshold : Int
  Item : SupplyChainItem

/-- Go: `type Layout struct { Type, Steps, Inspect, Keys, Expires,
Readme }`; the `map[string]Key` is an association list with last-binding
lookup. -/
structure Layout where
  Type_ : String
  Steps : List Step
  Inspect : List Inspection
  Keys : List (String × Key)
  Expires : String
  Readme : String

/-- The dynamically typed `Signed interface{}` field of a Metablock: within
this program it holds nothing (`nil`, before a successful `Load`), a `Link`,
or a `Layout`. -/
inductive SignedPayload where
  | none
  | link (l : Link)
  | layout (l : Layout)

/-- Go: `type Metablock struct { Signed interface{}; Signatures
[]Signature }`. -/
structure Metablock where
  Signed : SignedPayload
  Signatures : List Signature

/-! ## model.go: Load (JSON decoding)

`encoding/json` itself is the Go standard library, not repository code; the
decoding helpers below model its documented behaviour for the struct types
of `model.go`: unknown object fields are dropped, a missing field or a JSON
`null` leaves the Go zero value, and a type mismatch is a decode error
(`Option.none`). -/

/-- Go map lookup on a decoded JSON object: the last binding of a
duplicated key wins; `Option.none` is an absent key (Go `nil`). -/
def lookupGo (fields : List (String × Json)) (k : String) : Option Json :=
  List.foldl (fun acc kv => if kv.1 == k then some kv.2 else acc) none fields

/-- Lookup in the `map[string]*json.RawMessage` of `Load`: a key that is
absent, or present with JSON value `null` (which unmarshals into a
`*json.RawMessage` pointer as `nil`), both give Go `nil`. -/
def rawField (fields : List (String × Json)) (k : String) : Option Json :=
  match lookupGo fields k with
  | some Json.null => none
  | v => v

/-- Modelled from the spec: `encoding/json` (standard library) decoding of a
Go `string` struct field: missing or `null` leaves the zero value `""`. -/
def decodeStringField : Option Json → Option String
  | none => some ""
  | some Json.null => some ""
  | some (Json.str s) => some s
  | some _ => none

/-- Modelled from the spec: an element of a `[]string`; `null` leaves the
zero value `""`. -/
def decodeStringElem : Json → Option String
  | Json.null => some ""
  | Json.str s => some s
  | _ => none

/-- Modelled from the spec: a `[]string` struct field; missing or `null`
leaves the `nil` slice. -/
def decodeStringList : Option Json → Option (List String)
  | none => some []
  | some Json.null => some []
  | some (Json.arr xs) => List.mapM decodeStringElem xs
  | some _ => none

/-- Modelled from the spec: an element of a `[][]string`. -/
def decodeStringListElem : Json → Option (List String)
  | Json.null => some []
  | Json.arr xs => List.mapM decodeStringElem xs
  | _ => none

/-- Modelled from the spec: a `[][]string` struct field. -/
def decodeStringListList : Option Json → Option (List (List String))
  | none => some []
  | some Json.null => some []
  | some (Json.arr xs) => List.mapM decodeStringListElem xs
  | some _ => none

/-- Modelled from the spec: an `int` struct field (`Json.num` only carries
integral numbers, which decode into Go `int`). -/
def decodeIntField : Option Json → Option Int
  | none => some 0
  | some Json.null => some 0
  | some (Json.num n) => some n
  | some _ => none

/-- Modelled from the spec: a `map[string]interface{}` struct field; any
JSON object decodes as itself, missing or `null` leaves the `nil` map. -/
def decodeRawMapField : Option Json → Option (List (String × Json))
  | none => some []
  | some Json.null => some []
  | some (Json.obj fs) => some fs
  | some _ => none

/-- Modelled from the spec: the `KeyVal` struct field of a `Key`. -/
def decodeKeyValField : Option Json → Option KeyVal
  | none => some { Private := "", Public := "" }
  | some Json.null => some { Private := "", Public := "" }
  | some (Json.obj fs) => do
    let priv ← decodeStringField (lookupGo fs "private")
    let pub ← decodeStringField (lookupGo fs "public")
    some { Private := priv, Public := pub }
  | some _ => none

/-- Modelled from the spec: a `Key` value (of the `map[string]Key` in a
`Layout`); `null` leaves the zero value. -/
def decodeKey : Json → Option Key
  | Json.null =>
    some { KeyId := "", KeyIdHashAlgorithms := [], KeyType := "",
           KeyVal := { Private := "", Public := "" }, Scheme := "" }
  | Json.obj fs => do
    let keyId ← decodeStringField (lookupGo fs "keyid")
    let algs ← decodeStringList (lookupGo fs "keyid_hash_algorithms")
    let keyType ← decodeStringField (lookupGo fs "keytype")
    let keyVal ← decodeKeyValField (lookupGo fs "keyval")
    let scheme ← decodeStringField (lookupGo fs "scheme")
    some { KeyId := keyId, KeyIdHashAlgorithms := algs, KeyType := keyType,
           KeyVal := keyVal, Scheme := scheme }
  | _ => none

/-- Modelled from the spec: the `map[string]Key` field of a `Layout`. -/
def decodeKeysMapField : Option Json → Option (List (String × Key))
  | none => some []
  | some Json.null => some []
  | some (Json.obj fs) =>
    List.mapM (fun kv => do
      let k ← decodeKey kv.2
      some (kv.1, k)) fs
  | some _ => none

/-- Modelled from the spec: the JSON fields promoted from the embedded
`SupplyChainItem` of a `Step` or `Inspection`. -/
def decodeSupplyChainItemFields (fs : List (String × Json)) : Option SupplyChainItem := do
  let name ← decodeStringField (lookupGo fs "name")
  let em ← decodeStringListList (lookupGo fs "expected_materials")
  let ep ← decodeStringListList (lookupGo fs "expected_products")
  some { Name := name, ExpectedMaterials := em, ExpectedProducts := ep }

/-- Modelled from the spec: a `Step` element of a `Layout`'s `steps`
array. -/
def decodeStep : Json → Option Step
  | Json.null =>
    some { Type_ := "", PubKeys := [], ExpectedCommand := [], Threshold := 0,
           Item := { Name := "", ExpectedMaterials := [], ExpectedProducts := [] } }
  | Json.obj fs => do
    let t ← decodeStringField (lookupGo fs "_type")
    let pubKeys ← decodeStringList (lookupGo fs "pubkeys")
    let ec ← decodeStringList (lookupGo fs "expected_command")
    let th ← decodeIntField (lookupGo fs "threshold")
    let item ← decodeSupplyChainItemFields fs
    some { Type_ := t, PubKeys := pubKeys, ExpectedCommand := ec,
           Threshold := th, Item := item }
  | _ => none

/-- Modelled from the spec: the `[]Step` field of a `Layout`. -/
def decodeStepsField : Option Json → Option (List Step)
  | none => some []
  | some Json.null => some []
  | some (Json.arr xs) => List.mapM decodeStep xs
  | some _ => none

/-- Modelled from the spec: an `Inspection` element of a `Layout`'s
`inspect` array. -/
def decodeInspection : Json → Option Inspection
  | Json.null =>
    some { Type_ := "", Run := [],
           Item := { Name := "", ExpectedMaterials := [], ExpectedProducts := [] } }
  | Json.obj fs => do
    let t ← decodeStringField (lookupGo fs "_type")
    let run ← decodeStringList (lookupGo fs "run")
    let item ← decodeSupplyChainItemFields fs
    some { Type_ := t, Run := run, Item := item }
  | _ => none

/-- Modelled from the spec: the `[]Inspection` field of a `Layout`. -/
def decodeInspectField : Option Json → Option (List Inspection)
  | none => some []
  | some Json.null => some []
  | some (Json.arr xs) => List.mapM decodeInspection xs
  | some _ => none

/-- Modelled from the spec: strict decoding of the `signed` bytes into a
`Link` (`json.Unmarshal(*rawMb["signed"], &link)`). -/
def decodeLink : Json → Option Link
  | Json.null =>
    some { Type_ := "", Name := "", Materials := [], Products := [],
           ByProducts := [], Command := [], Environment := [] }
  | Json.obj fs => do
    let t ← decodeStringField (lookupGo fs "_type")
    let name ← decodeStringField (lookupGo fs "name")
    let materials ← decodeRawMapField (lookupGo fs "materials")
    let products ← decodeRawMapField (lookupGo fs "products")
    let byProducts ← decodeRawMapField (lookupGo fs "byproducts")
    let command ← decodeStringList (lookupGo fs "command")
    let environment ← decodeRawMapField (lookupGo fs "environment")
    some { Type_ := t, Name := name, Materials := materials,
           Products := products, ByProducts := byProducts,
           Command := command, Environment := environment }
  | _ => none

/-- Modelled from the spec: strict decoding of the `signed` bytes into a
`Layout`. -/
def decodeLayout : Json → Option Layout
  | Json.null =>
    some { Type_ := "", Steps := [], Inspect := [], Keys := [],
           Expires := "", Readme := "" }
  | Json.obj fs => do
    let t ← decodeStringField (lookupGo fs "_type")
    let steps ← decodeStepsField (lookupGo fs "steps")
    let inspect ← decodeInspectField (lookupGo fs "inspect")
    let keys ← decodeKeysMapField (lookupGo fs "keys")
    let expires ← decodeStringField (lookupGo fs "expires")
    let readme ← decodeStringField (lookupGo fs "readme")
    some { Type_ := t, Steps := steps, Inspect := inspect, Keys := keys,
           Expires := expires, Readme := readme }
  | _ => none

/-- Modelled from the spec: a `Signature` element of the `signatures`
array; `null` leaves the zero value. -/
def decodeSignature : Json → Option Signature
  | Json.null => some { KeyId := "", Sig := "" }
  | Json.obj fs => do
    let keyId ← decodeStringField (lookupGo fs "keyid")
    let sig ← decodeStringField (lookupGo fs "sig")
    some { KeyId := keyId, Sig := sig }
  | _ => none

/-- Modelled from the spec: `json.Unmarshal(*rawMb["signatures"],
&mb.Signatures)`: a JSON array of signatures (`null` sets the slice to
`nil`; anything else is a decode error). -/
def decodeSignatures : Json → Option (List Signature)
  | Json.null => some []
  | Json.arr xs => List.mapM decodeSignature xs
  | _ => none

/-- Go's `signed["_type"] == "link"` compares an `interface{}` map value
with a string: true exactly when the decoded value is that string. -/
def jsonIsStr (v : Option Json) (s : String) : Bool :=
  match v with
  | some (Json.str s2) => s2 == s
  | _ => false

/-- The errors `Load` can report: `unmarshal` stands for any
`encoding/json` error (message produced by the standard library), `format`
for the "requires 'signed' and 'signatures' parts" error, `unknownType` for
the "'_type' ... must be one of 'link' or 'layout'" error. -/
inductive LoadError where
  | unmarshal
  | format
  | unknownType
deriving DecidableEq

/-- Go: `func (mb *Metablock) Load(path string) error`, modelled from the
point where the file bytes have been parsed into a JSON tree (file I/O and
text parsing are outside the embedded sources; a parse failure of the raw
bytes would surface as `unmarshal` before any step below).  Returns the
updated Metablock together with the reported error, mirroring the original
in-place mutation: `Signatures` is written once the signatures part
decodes, `Signed` only on full success.  The top-level value must be an
object for the `map[string]*json.RawMessage` unmarshal to succeed (a
top-level `null` leaves the map `nil`, so both lookups give `nil` and the
format error fires). -/
def Metablock.Load (mb : Metablock) (j : Json) : Metablock × Option LoadError :=
  match j with
  | Json.obj fields =>
    match rawField fields "signed", rawField fields "signatures" with
    | some signedRaw, some sigsRaw =>
      match decodeSignatures sigsRaw with
      | none => (mb, some LoadError.unmarshal)
      | some sigs =>
        match signedRaw with
        | Json.obj sfields =>
          if jsonIsStr (lookupGo sfields "_type") "link" then
            match decodeLink (Json.obj sfields) with
            | none => ({ mb with Signatures := sigs }, some LoadError.unmarshal)
            | some link =>
              ({ Signed := SignedPayload.link link, Signatures := sigs }, none)
          else if jsonIsStr (lookupGo sfields "_type") "layout" then
            match decodeLayout (Json.obj sfields) with
            | none => ({ mb with Signatures := sigs }, some LoadError.unmarshal)
            | some layout =>
              ({ Signed := SignedPayload.layout layout, Signatures := sigs }, none)
          else
            ({ mb with Signatures := sigs }, some LoadError.unknownType)
        | _ => ({ mb with Signatures := sigs }, some LoadError.unmarshal)
    | _, _ => (mb, some LoadError.format)
  | Json.null => (mb, some LoadError.format)
  | _ => (mb, some LoadError.unmarshal)

/-! ## model.go: Sign and VerifySignature

`encodeCanonical` and the cryptographic primitives live in repository files
outside the embedded sources; the canonicalizer is an explicit function
argument `canon` (its errors propagate untouched), and the ed25519 backend
is modelled from the spec below. -/

/-- Go: `func (mb *Metablock) GetSignableRepresentation() ([]byte, error)` —
delegates to the external canonicalizer on `mb.Signed`. -/
def Metablock.GetSignableRepresentation
    (canon : SignedPayload → Except String (List Nat)) (mb : Metablock) :
    Except String (List Nat) :=
  canon mb.Signed

/-- Modelled from the spec: `generateEd25519Signature` (repository code
outside the embedded sources): the ed25519 signature backend returns a
`Signature` tagged with the signing key's id; the raw signature bytes are
abstracted by the `sigHex` argument. -/
def generateEd25519Signature (sigHex : List Nat → Key → String)
    (dataCanonical : List Nat) (key : Key) : Except String Signature :=
  Except.ok { KeyId := key.KeyId, Sig := sigHex dataCanonical key }

/-- Go: `func (mb *Metablock) Sign(key Key) error` — canonicalize
`mb.Signed`; dispatch on `(KeyType, Scheme)`: only `("ed25519","ed25519")`
is supported, anything else fails with the fixed unsupported-scheme
message; on success append the new signature to `mb.Signatures`.  Returns
the updated Metablock with the error, mirroring the in-place mutation
(which happens only on the success path). -/
def Metablock.Sign (canon : SignedPayload → Except String (List Nat))
    (gen : List Nat → Key → Except String Signature)
    (mb : Metablock) (key : Key) : Metablock × Option String :=
  match Metablock.GetSignableRepresentation canon mb with
  | Except.error e => (mb, some e)
  | Except.ok dataCanonical =>
    if key.KeyType == "ed25519" && key.Scheme == "ed25519" then
      match gen dataCanonical key with
      | Except.error e => (mb, some e)
      | Except.ok newSignature =>
        ({ mb with Signatures := mb.Signatures ++ [newSignature] }, none)
    else
      (mb, some "This key type or signature scheme is not supported yet!")

/-- How far `Metablock.VerifySignature` gets: it reports the
no-signature-found error, propagates a canonicalization error, or hands the
located signature and the canonical bytes to the external cryptographic
check (`VerifySignature(key, sig, dataCanonical)` of the key library, not
part of the embedded sources). -/
inductive VerifyOutcome where
  | noSignatureError (keyId : String)
  | canonError (e : String)
  | cryptoCheck (sig : Signature) (dataCanonical : List Nat)
deriving DecidableEq

/-- The scanning loop of `Metablock.VerifySignature`: `var sig Signature`
followed by the first entry of `Signatures` whose `KeyId` equals the key's
id; `sig` keeps its zero value when none matches. -/
def scanSignatures (sigs : List Signature) (keyId : String) : Signature :=
  match List.find? (fun s => s.KeyId == keyId) sigs with
  | some s => s
  | none => { KeyId := "", Sig := "" }

/-- Go: `func (mb *Metablock) VerifySignature(key Key) error` — after the
scan, report the no-signature error when `sig` still equals the zero
`Signature{}`, then canonicalize and delegate to the cryptographic
check. -/
def Metablock.VerifySignature (canon : SignedPayload → Except String (List Nat))
    (mb : Metablock) (key : Key) : VerifyOutcome :=
  let sig : Signature := scanSignatures mb.Signatures key.KeyId
  if sig = ({ KeyId := "", Sig := "" } : Signature) then VerifyOutcome.noSignatureError key.KeyId
  else
    match canon mb.Signed with
    | Except.error e => VerifyOutcome.canonError e
    | Except.ok dataCanonical => VerifyOutcome.cryptoCheck sig dataCanonical

/-- Whether `needle` is a prefix of `hay` (character lists). -/
def prefixChars : List Char → List Char → Bool
  | [], _ => true
  | _ :: _, [] => false
  | c :: cs, d :: ds => c == d && prefixChars cs ds

/-- Whether `needle` occurs contiguously inside `hay` (character lists). -/
def subChars (needle : List Char) : List Char → Bool
  | [] => prefixChars needle []
  | d :: ds => prefixChars needle (d :: ds) || subChars needle ds

/-- Go `strings.Contains`: used only to state whether an error message
mentions a key id. -/
def containsSubstring (hay needle : String) : Bool :=
  subChars needle.toList hay.toList

end InToto

namespace InToto

/-! ## Helper lemmas about Set -/

theorem contains_append_single (l : List String) (x e : String) :
    List.contains (List.append l [e]) x = (List.contains l x || x == e) := by
  induction l with
  | nil => simp [List.contains_cons, beq_eq_decide]
  | cons a t ih =>
    show List.contains (a :: List.append t [e]) x = _
    rw [List.contains_cons, List.contains_cons, ih, Bool.or_assoc]

theorem Has_Add (s : Set) (e x : String) :
    Set.Has (Set.Add s e) x = (Set.Has s x || x == e) := by
  unfold Set.Has Set.Add
  by_cases h : List.contains s e
  · rw [if_pos h]
    cases hxe : x == e
    · simp
    · have : x = e := by simpa using hxe
      subst this
      rw [Bool.or_true]
      exact h
  · rw [if_neg h, contains_append_single]

theorem foldAdd_Has (f : String → Bool) (l : List String) (acc : Set) (x : String) :
    Set.Has (List.foldl (fun res e => if f e then Set.Add res e else res) acc l) x
      = (Set.Has acc x || (List.contains l x && f x)) := by
  induction l generalizing acc with
  | nil => simp [List.contains]
  | cons a t ih =>
    rw [List.foldl_cons, ih, List.contains_cons]
    by_cases hxa : x = a
    · subst hxa
      cases hfa : f x <;> simp [hfa, Has_Add]
    · have hbe : (x == a) = false := by simpa using hxa
      cases hfa : f a <;> simp [hfa, Has_Add, hbe]

end InToto

namespace InToto

/-- C7: for all Sets A and B and every string x, `A.Intersection(B).Has(x)`
holds if and only if both `A.Has(x)` and `B.Has(x)` hold. -/
theorem Intersection_Has_iff (A B : Set) (x : String) :
    Set.Has (Set.Intersection A B) x = true ↔
      (Set.Has A x = true ∧ Set.Has B x = true) := by
  have hfun : (fun res elem => if Set.Has B elem = false then res else Set.Add res elem)
      = (fun (res : Set) elem => if Set.Has B elem then Set.Add res elem else res) := by
    funext res elem
    cases h : Set.Has B elem <;> simp [h]
  unfold Set.Intersection
  rw [hfun, foldAdd_Has]
  rw [show Set.Has (NewSet []) x = false from rfl, Bool.false_or, Bool.and_eq_true]
  exact Iff.rfl

/-- C8: `subsetCheck(subset, superset)` returns true if and only if every
element of `subset` occurs at least once in `superset` (order and
duplicates in either slice are irrelevant); in particular it is true for an
empty `subset`. -/
theorem subsetCheck_iff_subset (subset superset : List String) :
    subsetCheck subset superset = true ↔ ∀ x ∈ subset, x ∈ superset := by
  induction subset with
  | nil => simp [subsetCheck]
  | cons a t ih =>
    by_cases hmem : a ∈ superset
    · have hany : List.any superset (fun sup => a == sup) = true := by
        rw [List.any_eq_true]
        exact ⟨a, hmem, by simp⟩
      simp [subsetCheck, hany, ih, hmem]
    · cases hany : List.any superset (fun sup => a == sup) with
      | true =>
        exfalso
        obtain ⟨y, hy, he⟩ := List.any_eq_true.mp hany
        exact hmem (by rwa [show a = y from by simpa using he])
      | false => simp [subsetCheck, hany, hmem]

/-- The external glob matcher on the single-star pattern: `*` matches
exactly the names that contain no path separator. -/
theorem matchFuel_star (n : List Char) :
    ∀ fuel : Nat, n.length + 2 ≤ fuel →
      filepath.matchFuel fuel ['*'] n = Except.ok (!(List.contains n '/')) := by
  induction n with
  | nil =>
    intro fuel hf
    obtain ⟨f, rfl⟩ : ∃ f, fuel = f + 2 := ⟨fuel - 2, by omega⟩
    rfl
  | cons c n2 ih =>
    intro fuel hf
    obtain ⟨f, rfl⟩ : ∃ f, fuel = f + 1 := ⟨fuel - 1, by omega⟩
    have hinner : filepath.matchFuel f [] (c :: n2) = Except.ok false := by
      obtain ⟨g, rfl⟩ : ∃ g, f = g + 1 := ⟨f - 1, by simp at hf; omega⟩
      rfl
    have hlen : n2.length + 2 ≤ f := by simp at hf; omega
    by_cases hc : c = '/'
    · subst hc
      simp [filepath.matchFuel, hinner, List.contains_cons]
    · have hrec := ih f hlen
      have hbc : ('/' == c) = false := by
        simp only [beq_eq_false_iff_ne, ne_eq]
        exact fun h => hc h.symm
      simp [filepath.matchFuel, hinner, hc, hrec, List.contains_cons, hbc]
      exact fun _ h => hc h.symm

/-- C4 counterexample: on the set `{"a/b"}`, whose only element contains a
path separator, `Filter("*")` drops the element, so it does not equal the
original set. -/
theorem Filter_star_counterexample :
    Set.Has (Set.Filter (NewSet ["a/b"]) "*") "a/b" = false ∧
    Set.Has (NewSet ["a/b"]) "a/b" = true :=
  ⟨rfl, rfl⟩

/-- C4 (amended): `A.Filter("*")` holds exactly the elements of A that
contain no path separator `/`; it equals A only when no element contains a
separator, because `*` in the glob matcher does not match `/`. -/
theorem Filter_star_no_separator (A : Set) (x : String) :
    Set.Has (Set.Filter A "*") x = (Set.Has A x && !(List.contains x.toList '/')) := by
  have hm : ∀ elem : String, filepath.Match "*" elem
      = Except.ok (!(List.contains elem.toList '/')) := by
    intro elem
    unfold filepath.Match
    apply matchFuel_star
    have h1 : elem.toList.length = elem.length := rfl
    have h2 : ("*" : String).length = 1 := rfl
    omega
  have hfun : (fun res elem =>
      match filepath.Match "*" elem with
      | Except.error _ => res
      | Except.ok false => res
      | Except.ok true => Set.Add res elem)
      = (fun (res : Set) elem =>
          if !(List.contains elem.toList '/') then Set.Add res elem else res) := by
    funext res elem
    rw [hm elem]
    cases hb : !(List.contains elem.toList '/') <;> simp [hb]
  unfold Set.Filter
  rw [hfun, foldAdd_Has]
  rfl

end InToto

namespace InToto

/-! ## Helper lemmas about the Set heap -/

theorem Store.read_write_ne (σ : Store) (r r2 : Nat) (v : Set) (h : r ≠ r2) :
    Store.read (Store.write σ r v) r2 = Store.read σ r2 := by
  show List.getD (List.set σ.sets r v) r2 [] = List.getD σ.sets r2 []
  rw [List.getD_eq_getElem?_getD, List.getD_eq_getElem?_getD, List.getElem?_set_ne h]

theorem Store.read_addAt_ne (σ : Store) (res r : Nat) (e : String) (h : res ≠ r) :
    Store.read (Store.addAt σ res e) r = Store.read σ r :=
  Store.read_write_ne σ res r _ h

theorem foldl_read_invariant (r : Nat) (step : Store → String → Store)
    (hstep : ∀ (σc : Store) (e : String), Store.read (step σc e) r = Store.read σc r) :
    ∀ (l : List String) (σ : Store),
      Store.read (List.foldl step σ l) r = Store.read σ r := by
  intro l
  induction l with
  | nil => intro σ; rfl
  | cons a t ih => intro σ; rw [List.foldl_cons, ih, hstep]

theorem Store.read_alloc_lt (σ : Store) (r : Nat) (hr : r < σ.sets.length) :
    Store.read (Store.allocNew σ).1 r = Store.read σ r := by
  show List.getD (σ.sets ++ [NewSet []]) r [] = List.getD σ.sets r []
  rw [List.getD_eq_getElem?_getD, List.getD_eq_getElem?_getD, List.getElem?_append,
    if_pos hr]

theorem Intersection_read_frame (σ : Store) (r1 r2 r : Nat) (hr : r < σ.sets.length) :
    Store.read (Store.Intersection σ r1 r2).1 r = Store.read σ r := by
  have hne : σ.sets.length ≠ r := by omega
  have hstep : ∀ (σc : Store) (e : String),
      Store.read
        (if Set.Has (Store.read σc r2) e = false then σc
         else Store.addAt σc σ.sets.length e) r = Store.read σc r := by
    intro σc e
    cases hb : Set.Has (Store.read σc r2) e <;>
      simp [hb, Store.read_addAt_ne _ _ _ _ hne]
  show Store.read (List.foldl _ (Store.allocNew σ).1 (Store.read σ r1)) r = _
  rw [foldl_read_invariant r _ hstep, Store.read_alloc_lt σ r hr]

theorem Difference_read_frame (σ : Store) (r1 r2 r : Nat) (hr : r < σ.sets.length) :
    Store.read (Store.Difference σ r1 r2).1 r = Store.read σ r := by
  have hne : σ.sets.length ≠ r := by omega
  have hstep : ∀ (σc : Store) (e : String),
      Store.read
        (if Set.Has (Store.read σc r2) e then σc
         else Store.addAt σc σ.sets.length e) r = Store.read σc r := by
    intro σc e
    cases hb : Set.Has (Store.read σc r2) e <;>
      simp [hb, Store.read_addAt_ne _ _ _ _ hne]
  show Store.read (List.foldl _ (Store.allocNew σ).1 (Store.read σ r1)) r = _
  rw [foldl_read_invariant r _ hstep, Store.read_alloc_lt σ r hr]

theorem Filter_read_frame (σ : Store) (r1 r : Nat) (p : String) (hr : r < σ.sets.length) :
    Store.read (Store.Filter σ r1 p).1 r = Store.read σ r := by
  have hne : σ.sets.length ≠ r := by omega
  have hstep : ∀ (σc : Store) (e : String),
      Store.read
        (match filepath.Match p e with
         | Except.error _ => σc
         | Except.ok false => σc
         | Except.ok true => Store.addAt σc σ.sets.length e) r = Store.read σc r := by
    intro σc e
    cases hm : filepath.Match p e with
    | error e2 => simp [hm]
    | ok b => cases b <;> simp [hm, Store.read_addAt_ne _ _ _ _ hne]
  show Store.read (List.foldl _ (Store.allocNew σ).1 (Store.read σ r1)) r = _
  rw [foldl_read_invariant r _ hstep, Store.read_alloc_lt σ r hr]

/-- C10: `Intersection`, `Difference` and `Filter` each return a freshly
created Set and never mutate their operands: over the explicit heap, after
any of the three calls the sets behind both operand references are exactly
what they were before, and the returned reference is distinct from both
operands. -/
theorem SetOps_no_mutation (σ : Store) (r1 r2 : Nat) (p : String)
    (h1 : r1 < σ.sets.length) (h2 : r2 < σ.sets.length) :
    (Store.read (Store.Intersection σ r1 r2).1 r1 = Store.read σ r1 ∧
     Store.read (Store.Intersection σ r1 r2).1 r2 = Store.read σ r2 ∧
     (Store.Intersection σ r1 r2).2 ≠ r1 ∧ (Store.Intersection σ r1 r2).2 ≠ r2) ∧
    (Store.read (Store.Difference σ r1 r2).1 r1 = Store.read σ r1 ∧
     Store.read (Store.Difference σ r1 r2).1 r2 = Store.read σ r2 ∧
     (Store.Difference σ r1 r2).2 ≠ r1 ∧ (Store.Difference σ r1 r2).2 ≠ r2) ∧
    (Store.read (Store.Filter σ r1 p).1 r1 = Store.read σ r1 ∧
     Store.read (Store.Filter σ r1 p).1 r2 = Store.read σ r2 ∧
     (Store.Filter σ r1 p).2 ≠ r1 ∧ (Store.Filter σ r1 p).2 ≠ r2) := by
  have hfresh1 : σ.sets.length ≠ r1 := by omega
  have hfresh2 : σ.sets.length ≠ r2 := by omega
  exact ⟨⟨Intersection_read_frame σ r1 r2 r1 h1, Intersection_read_frame σ r1 r2 r2 h2,
          hfresh1, hfresh2⟩,
         ⟨Difference_read_frame σ r1 r2 r1 h1, Difference_read_frame σ r1 r2 r2 h2,
          hfresh1, hfresh2⟩,
         ⟨Filter_read_frame σ r1 r1 p h1, Filter_read_frame σ r1 r2 p h2,
          hfresh1, hfresh2⟩⟩

/-- Witness for `SetOps_no_mutation` on a concrete two-set heap. -/
theorem SetOps_no_mutation_witness :
    (0 : Nat) < (Store.mk [NewSet ["a"], NewSet ["b"]]).sets.length ∧
    (1 : Nat) < (Store.mk [NewSet ["a"], NewSet ["b"]]).sets.length ∧
    Store.read (Store.Intersection (Store.mk [NewSet ["a"], NewSet ["b"]]) 0 1).1 0
      = Store.read (Store.mk [NewSet ["a"], NewSet ["b"]]) 0 :=
  ⟨by decide, by decide,
   (SetOps_no_mutation (Store.mk [NewSet ["a"], NewSet ["b"]]) 0 1 "*"
     (by decide) (by decide)).1.1⟩

end InToto

namespace InToto

/-- C1 counterexample: for the key with empty `KeyId` and a signature list
holding exactly the empty-keyId/empty-sig pair, a signature whose `keyId`
equals the key's id is present, yet `VerifySignature` still reports the
no-signature error (the zero-value sentinel comparison fires), refuting the
claimed equivalence. -/
theorem VerifySignature_noSignature_iff_counterexample :
    ¬ (Metablock.VerifySignature (fun _ => Except.ok [])
         { Signed := SignedPayload.none, Signatures := [{ KeyId := "", Sig := "" }] }
         { KeyId := "", KeyIdHashAlgorithms := [], KeyType := "",
           KeyVal := { Private := "", Public := "" }, Scheme := "" }
       = VerifyOutcome.noSignatureError ""
       ↔ ∀ s ∈ [({ KeyId := "", Sig := "" } : Signature)], s.KeyId ≠ "") := by
  intro h
  have h2 := h.mp rfl
  exact h2 { KeyId := "", Sig := "" } (by simp) rfl

/-- C1 (amended): `VerifySignature` fails with the no-signature error if
and only if either no element of `Signatures` has the key's id, or the
first matching element is the zero `Signature` (empty `keyId` and empty
`sig`, possible only for a key with empty id) — the code detects "not
found" by comparing against the zero value, which a legitimately empty
signature entry also satisfies. -/
theorem VerifySignature_noSignature_iff_zeroValue
    (canon : SignedPayload → Except String (List Nat)) (mb : Metablock) (key : Key) :
    Metablock.VerifySignature canon mb key = VerifyOutcome.noSignatureError key.KeyId
      ↔ ((∀ s ∈ mb.Signatures, s.KeyId ≠ key.KeyId) ∨
         List.find? (fun s => s.KeyId == key.KeyId) mb.Signatures
           = some { KeyId := "", Sig := "" }) := by
  cases hfind : List.find? (fun s => s.KeyId == key.KeyId) mb.Signatures with
  | none =>
    have hall : ∀ s ∈ mb.Signatures, s.KeyId ≠ key.KeyId := by
      intro s hs h
      have := List.find?_eq_none.mp hfind s hs
      simp [h] at this
    constructor
    · intro _
      exact Or.inl hall
    · intro _
      simp [Metablock.VerifySignature, scanSignatures, hfind]
  | some s =>
    by_cases hz : s = ({ KeyId := "", Sig := "" } : Signature)
    · subst hz
      constructor
      · intro _
        exact Or.inr rfl
      · intro _
        simp [Metablock.VerifySignature, scanSignatures, hfind]
    · have hkey : s.KeyId = key.KeyId := by
        have := List.find?_some hfind
        simpa using this
      have hmem : s ∈ mb.Signatures := List.mem_of_find?_eq_some hfind
      constructor
      · intro hL
        exfalso
        simp [Metablock.VerifySignature, scanSignatures, hfind, hz] at hL
        cases hc : canon mb.Signed with
        | error e => rw [hc] at hL; simp at hL
        | ok d => rw [hc] at hL; simp at hL
      · intro hR
        exfalso
        cases hR with
        | inl hall => exact hall s hmem hkey
        | inr hfz =>
          exact hz (by injection hfz)

/-- C3 counterexample: signing with an unsupported key (type `rsa`, id
`abc`) fails with the fixed message, which does not mention the key id. -/
theorem Sign_unsupported_message_counterexample :
    Metablock.Sign (fun _ => Except.ok []) (generateEd25519Signature (fun _ _ => ""))
        { Signed := SignedPayload.none, Signatures := [] }
        { KeyId := "abc", KeyIdHashAlgorithms := [], KeyType := "rsa",
          KeyVal := { Private := "", Public := "" }, Scheme := "rsassa-pss-sha256" }
      = ({ Signed := SignedPayload.none, Signatures := [] },
         some "This key type or signature scheme is not supported yet!") ∧
    containsSubstring "This key type or signature scheme is not supported yet!" "abc"
      = false :=
  ⟨rfl, rfl⟩

/-- C3 (amended): for every key whose `(KeyType, Scheme)` pair is not
`("ed25519", "ed25519")`, once canonicalization succeeds, `Sign` fails with
the unsupported-scheme error whose message is the fixed string "This key
type or signature scheme is not supported yet!" — it does not name the key
id — and only the ed25519 backend is supported. -/
theorem Sign_unsupported_fixed_message
    (canon : SignedPayload → Except String (List Nat))
    (gen : List Nat → Key → Except String Signature)
    (mb : Metablock) (key : Key) (d : List Nat)
    (hc : canon mb.Signed = Except.ok d)
    (hk : ¬(key.KeyType = "ed25519" ∧ key.Scheme = "ed25519")) :
    Metablock.Sign canon gen mb key
      = (mb, some "This key type or signature scheme is not supported yet!") := by
  have hb : (key.KeyType == "ed25519" && key.Scheme == "ed25519") = false := by
    cases h1 : key.KeyType == "ed25519" <;> cases h2 : key.Scheme == "ed25519" <;>
      first
        | rfl
        | exact absurd ⟨by simpa using h1, by simpa using h2⟩ hk
  unfold Metablock.Sign Metablock.GetSignableRepresentation
  rw [hc]
  simp [hb]

/-- Witness for `Sign_unsupported_fixed_message` on a concrete rsa key. -/
theorem Sign_unsupported_fixed_message_witness :
    ((fun _ : SignedPayload => (Except.ok [] : Except String (List Nat)))
        ({ Signed := SignedPayload.none, Signatures := [] } : Metablock).Signed
      = Except.ok []) ∧
    ¬((({ KeyId := "abc", KeyIdHashAlgorithms := [], KeyType := "rsa",
          KeyVal := { Private := "", Public := "" },
          Scheme := "rsassa-pss-sha256" } : Key).KeyType = "ed25519") ∧
      (({ KeyId := "abc", KeyIdHashAlgorithms := [], KeyType := "rsa",
          KeyVal := { Private := "", Public := "" },
          Scheme := "rsassa-pss-sha256" } : Key).Scheme = "ed25519")) ∧
    Metablock.Sign (fun _ => Except.ok [])
        (generateEd25519Signature (fun _ _ => ""))
        { Signed := SignedPayload.none, Signatures := [] }
        { KeyId := "abc", KeyIdHashAlgorithms := [], KeyType := "rsa",
          KeyVal := { Private := "", Public := "" }, Scheme := "rsassa-pss-sha256" }
      = ({ Signed := SignedPayload.none, Signatures := [] },
         some "This key type or signature scheme is not supported yet!") :=
  ⟨rfl, by simp,
   Sign_unsupported_fixed_message _ _ _ _ [] rfl (by simp)⟩

end InToto

namespace InToto

/-- C6: a successful `Sign` leaves `Signed` untouched and appends exactly
one signature, tagged with the key's id, at the end of `Signatures`;
signing again with the same key appends a second duplicate entry rather
than replacing or rejecting the first. -/
theorem Sign_appends_signature
    (canon : SignedPayload → Except String (List Nat))
    (sigHex : List Nat → Key → String)
    (mb mb2 : Metablock) (key : Key)
    (h : Metablock.Sign canon (generateEd25519Signature sigHex) mb key = (mb2, none)) :
    mb2.Signed = mb.Signed ∧
    ∃ s : String,
      mb2.Signatures = mb.Signatures ++ [{ KeyId := key.KeyId, Sig := s }] ∧
      ∀ mb3 : Metablock,
        Metablock.Sign canon (generateEd25519Signature sigHex) mb2 key = (mb3, none) →
        ∃ s2 : String,
          mb3.Signatures = mb.Signatures
            ++ [{ KeyId := key.KeyId, Sig := s }, { KeyId := key.KeyId, Sig := s2 }] := by
  unfold Metablock.Sign Metablock.GetSignableRepresentation at h
  cases hc : canon mb.Signed with
  | error e =>
    rw [hc] at h
    simp at h
  | ok d =>
    rw [hc] at h
    cases hb : (key.KeyType == "ed25519" && key.Scheme == "ed25519") with
    | false =>
      rw [hb] at h
      simp at h
    | true =>
      rw [hb] at h
      simp [generateEd25519Signature] at h
      obtain ⟨hmb, -⟩ : { mb with
          Signatures := mb.Signatures ++ [{ KeyId := key.KeyId, Sig := sigHex d key }] }
            = mb2 ∧ True := ⟨by rw [← h], trivial⟩
      subst hmb
      refine ⟨rfl, sigHex d key, rfl, ?_⟩
      intro mb3 h3
      unfold Metablock.Sign Metablock.GetSignableRepresentation at h3
      have hc2 : canon ({ mb with
          Signatures := mb.Signatures ++ [{ KeyId := key.KeyId, Sig := sigHex d key }]
        } : Metablock).Signed = Except.ok d := hc
      rw [hc2, hb] at h3
      simp [generateEd25519Signature] at h3
      refine ⟨sigHex d key, ?_⟩
      rw [← h3]

end InToto

namespace InToto

/-- Witness for `Sign_appends_signature` on a concrete empty Metablock and
ed25519 key. -/
theorem Sign_appends_signature_witness :
    Metablock.Sign (fun _ => Except.ok []) (generateEd25519Signature (fun _ _ => "S"))
        { Signed := SignedPayload.none, Signatures := [] }
        { KeyId := "kid", KeyIdHashAlgorithms := [], KeyType := "ed25519",
          KeyVal := { Private := "", Public := "" }, Scheme := "ed25519" }
      = ({ Signed := SignedPayload.none, Signatures := [{ KeyId := "kid", Sig := "S" }] },
         none) ∧
    ({ Signed := SignedPayload.none,
       Signatures := [{ KeyId := "kid", Sig := "S" }] } : Metablock).Signed
      = ({ Signed := SignedPayload.none, Signatures := [] } : Metablock).Signed :=
  ⟨rfl,
   (Sign_appends_signature (fun _ => Except.ok []) (fun _ _ => "S")
     { Signed := SignedPayload.none, Signatures := [] }
     { Signed := SignedPayload.none, Signatures := [{ KeyId := "kid", Sig := "S" }] }
     { KeyId := "kid", KeyIdHashAlgorithms := [], KeyType := "ed25519",
       KeyVal := { Private := "", Public := "" }, Scheme := "ed25519" } rfl).1⟩

/-- C9: `Sign` is atomic on failure — whenever it reports an error
(canonicalization failure, unsupported key type/scheme, or a failing
backend), the Metablock is returned completely unchanged: nothing was
appended to `Signatures` and `Signed` is untouched. -/
theorem Sign_atomic_on_failure
    (canon : SignedPayload → Except String (List Nat))
    (gen : List Nat → Key → Except String Signature)
    (mb mb2 : Metablock) (key : Key) (e : String)
    (h : Metablock.Sign canon gen mb key = (mb2, some e)) : mb2 = mb := by
  unfold Metablock.Sign Metablock.GetSignableRepresentation at h
  cases hc : canon mb.Signed with
  | error e2 =>
    rw [hc] at h
    simp at h
    exact h.1.symm
  | ok d =>
    rw [hc] at h
    cases hb : (key.KeyType == "ed25519" && key.Scheme == "ed25519") with
    | false =>
      rw [hb] at h
      simp at h
      exact h.1.symm
    | true =>
      rw [hb] at h
      simp at h
      cases hg : gen d key with
      | error e2 =>
        rw [hg] at h
        simp at h
        exact h.1.symm
      | ok s =>
        rw [hg] at h
        simp at h

/-- Witness for `Sign_atomic_on_failure` on a failing canonicalizer. -/
theorem Sign_atomic_on_failure_witness :
    Metablock.Sign (fun _ => Except.error "canonicalization failed")
        (generateEd25519Signature (fun _ _ => ""))
        { Signed := SignedPayload.none, Signatures := [] }
        { KeyId := "kid", KeyIdHashAlgorithms := [], KeyType := "ed25519",
          KeyVal := { Private := "", Public := "" }, Scheme := "ed25519" }
      = ({ Signed := SignedPayload.none, Signatures := [] },
         some "canonicalization failed") ∧
    ({ Signed := SignedPayload.none, Signatures := [] } : Metablock)
      = { Signed := SignedPayload.none, Signatures := [] } :=
  ⟨rfl,
   Sign_atomic_on_failure (fun _ => Except.error "canonicalization failed")
     (generateEd25519Signature (fun _ _ => ""))
     { Signed := SignedPayload.none, Signatures := [] }
     { Signed := SignedPayload.none, Signatures := [] }
     { KeyId := "kid", KeyIdHashAlgorithms := [], KeyType := "ed25519",
       KeyVal := { Private := "", Public := "" }, Scheme := "ed25519" }
     "canonicalization failed" rfl⟩

end InToto

namespace InToto

theorem jsonIsStr_eq_false_of_ne (v : Option Json) (s : String)
    (h : v ≠ some (Json.str s)) : jsonIsStr v s = false := by
  unfold jsonIsStr
  cases v with
  | none => rfl
  | some j =>
    cases j with
    | str s2 =>
      by_cases he : s2 = s
      · exact absurd (by rw [he]) h
      · simpa using he
    | null => rfl
    | bool b => rfl
    | num n => rfl
    | arr xs => rfl
    | obj fs => rfl

/-- C2: for a well-formed envelope (a JSON object with non-null `signed`
object and decodable non-null `signatures`), `Load` decodes the `signed`
part into a Link when its `_type` discriminator is the string "link", into
a Layout when it is "layout", and reports the unknown-type error for any
other discriminator value, a non-string discriminator, or a missing one. -/
theorem Load_dispatch :
    (∀ (mb : Metablock) (fields sfields : List (String × Json)) (sigsRaw : Json)
       (sigs : List Signature) (link : Link),
       rawField fields "signed" = some (Json.obj sfields) →
       rawField fields "signatures" = some sigsRaw →
       decodeSignatures sigsRaw = some sigs →
       lookupGo sfields "_type" = some (Json.str "link") →
       decodeLink (Json.obj sfields) = some link →
       Metablock.Load mb (Json.obj fields)
         = ({ Signed := SignedPayload.link link, Signatures := sigs }, none)) ∧
    (∀ (mb : Metablock) (fields sfields : List (String × Json)) (sigsRaw : Json)
       (sigs : List Signature) (layout : Layout),
       rawField fields "signed" = some (Json.obj sfields) →
       rawField fields "signatures" = some sigsRaw →
       decodeSignatures sigsRaw = some sigs →
       lookupGo sfields "_type" = some (Json.str "layout") →
       decodeLayout (Json.obj sfields) = some layout →
       Metablock.Load mb (Json.obj fields)
         = ({ Signed := SignedPayload.layout layout, Signatures := sigs }, none)) ∧
    (∀ (mb : Metablock) (fields sfields : List (String × Json)) (sigsRaw : Json)
       (sigs : List Signature),
       rawField fields "signed" = some (Json.obj sfields) →
       rawField fields "signatures" = some sigsRaw →
       decodeSignatures sigsRaw = some sigs →
       lookupGo sfields "_type" ≠ some (Json.str "link") →
       lookupGo sfields "_type" ≠ some (Json.str "layout") →
       Metablock.Load mb (Json.obj fields)
         = ({ mb with Signatures := sigs }, some LoadError.unknownType)) := by
  refine ⟨?_, ?_, ?_⟩
  · intro mb fields sfields sigsRaw sigs link h1 h2 h3 h4 h5
    simp [Metablock.Load, h1, h2, h3, h4, h5, jsonIsStr]
  · intro mb fields sfields sigsRaw sigs layout h1 h2 h3 h4 h5
    simp [Metablock.Load, h1, h2, h3, h4, h5, jsonIsStr]
  · intro mb fields sfields sigsRaw sigs h1 h2 h3 h4 h5
    have hf1 := jsonIsStr_eq_false_of_ne _ _ h4
    have hf2 := jsonIsStr_eq_false_of_ne _ _ h5
    simp [Metablock.Load, h1, h2, h3, hf1, hf2]

/-- Witness for `Load_dispatch` on the three concrete envelope documents of
the spec: a link, a layout, and a bogus discriminator. -/
theorem Load_dispatch_witness :
    Metablock.Load { Signed := SignedPayload.none, Signatures := [] }
        (Json.obj [("signed", Json.obj [("_type", Json.str "link")]),
                   ("signatures", Json.arr [])])
      = ({ Signed := SignedPayload.link
             { Type_ := "link", Name := "", Materials := [], Products := [],
               ByProducts := [], Command := [], Environment := [] },
           Signatures := [] }, none) ∧
    Metablock.Load { Signed := SignedPayload.none, Signatures := [] }
        (Json.obj [("signed",
            Json.obj [("_type", Json.str "layout"), ("steps", Json.arr []),
                      ("inspect", Json.arr []), ("keys", Json.obj []),
                      ("expires", Json.str ""), ("readme", Json.str "")]),
                   ("signatures", Json.arr [])])
      = ({ Signed := SignedPayload.layout
             { Type_ := "layout", Steps := [], Inspect := [], Keys := [],
               Expires := "", Readme := "" },
           Signatures := [] }, none) ∧
    Metablock.Load { Signed := SignedPayload.none, Signatures := [] }
        (Json.obj [("signed", Json.obj [("_type", Json.str "bogus")]),
                   ("signatures", Json.arr [])])
      = ({ Signed := SignedPayload.none, Signatures := [] },
         some LoadError.unknownType) :=
  ⟨Load_dispatch.1 _ _ _ _ _ _ rfl rfl rfl rfl rfl,
   Load_dispatch.2.1 _ _ _ _ _ _ rfl rfl rfl rfl rfl,
   Load_dispatch.2.2 _ _ [("_type", Json.str "bogus")] _ _ rfl rfl rfl
     (by simp [lookupGo]) (by simp [lookupGo])⟩

/-- C5: `Load` fails with the format error, leaving the Metablock (and in
particular its `Signed` field) untouched, whenever the parsed top-level
object lacks the `signed` field, lacks the `signatures` field, or maps
either of them to an explicit JSON null. -/
theorem Load_missing_or_null_format
    (mb : Metablock) (fields : List (String × Json))
    (h : lookupGo fields "signed" = none ∨ lookupGo fields "signed" = some Json.null ∨
         lookupGo fields "signatures" = none ∨
         lookupGo fields "signatures" = some Json.null) :
    Metablock.Load mb (Json.obj fields) = (mb, some LoadError.format) := by
  have hraw : rawField fields "signed" = none ∨ rawField fields "signatures" = none := by
    rcases h with h | h | h | h
    · exact Or.inl (by simp [rawField, h])
    · exact Or.inl (by simp [rawField, h])
    · exact Or.inr (by simp [rawField, h])
    · exact Or.inr (by simp [rawField, h])
  rcases hraw with h | h
  · cases h2 : rawField fields "signatures" <;> simp [Metablock.Load, h, h2]
  · cases h2 : rawField fields "signed" <;> simp [Metablock.Load, h, h2]

/-- Witness for `Load_missing_or_null_format`: a document with no `signed`
field at all. -/
theorem Load_missing_or_null_format_witness :
    (lookupGo [(("signatures" : String), Json.arr [])] "signed" = none ∨
     lookupGo [(("signatures" : String), Json.arr [])] "signed" = some Json.null ∨
     lookupGo [(("signatures" : String), Json.arr [])] "signatures" = none ∨
     lookupGo [(("signatures" : String), Json.arr [])] "signatures" = some Json.null) ∧
    Metablock.Load { Signed := SignedPayload.none, Signatures := [] }
        (Json.obj [("signatures", Json.arr [])])
      = ({ Signed := SignedPayload.none, Signatures := [] }, some LoadError.format) :=
  ⟨Or.inl rfl, Load_missing_or_null_format _ _ (Or.inl rfl)⟩

end InToto
